import Mathlib

/-!
Shallow embedding of the `avowed` validation library (Go).

The embedding follows the source files:
  * `tag.go`        — tag splitting, parameter extraction, directive dispatch,
                      the struct walker `ValidateStruct`;
  * `validators.go` — the leaf validators and `CompositeValidator`;
  * `validator.go`  — `ValidatedValue` (`Set`/`Get`).

Go strings are Lean `String`s.  `strings.Split`, `strings.TrimSpace`,
`strconv.Atoi` and `len` (byte length) are embedded below as `goSplit`,
`goTrim`, `goAtoi` and `goLen`; they are defined directly over `List Char`
so that they are both executable and easy to reason about, and they follow
the Go semantics (split on every occurrence of the separator, Go's
White_Space set for trimming, optional sign + decimal digits with 64-bit
bounds for Atoi, UTF-8 byte length for `len`).

Calls into the Go standard library that parse rich formats (URLs, e-mail
addresses, MAC/IP addresses, JSON, XML documents, regular expressions) are
not code of this repository; they are abstracted as the fields of a
`Stdlib` record, and every theorem about code paths that can reach them is
proved for every such record (or at a fixed arbitrary instantiation when a
closed statement is required).
-/

namespace Avowed

/-- Go `unicode.IsSpace`: the White_Space code points trimmed by
`strings.TrimSpace`. -/
def isGoSpace (c : Char) : Bool :=
  let n := c.toNat
  (9 ≤ n && n ≤ 13) || n == 32 || n == 0x85 || n == 0xA0 ||
  n == 0x1680 || (0x2000 ≤ n && n ≤ 0x200A) ||
  n == 0x2028 || n == 0x2029 || n == 0x202F || n == 0x205F || n == 0x3000

/-- `strings.TrimSpace`: drop White_Space from both ends. -/
def goTrim (s : String) : String :=
  ⟨((s.data.dropWhile isGoSpace).reverse.dropWhile isGoSpace).reverse⟩

/-- Splitting a character list at every occurrence of `c`
(the semantics of Go's `strings.Split` for a one-character separator:
the result is never empty, and splitting the empty string yields `[[]]`). -/
def splitChar (c : Char) : List Char → List (List Char)
  | [] => [[]]
  | x :: rest =>
    if x = c then [] :: splitChar c rest
    else
      match splitChar c rest with
      | [] => [[x]]
      | g :: gs => (x :: g) :: gs

/-- Go `strings.Split(s, sep)` for the one-character separators used by
`tag.go` (`","` and `"="`). -/
def goSplit (c : Char) (s : String) : List String :=
  (splitChar c s.data).map fun l => ⟨l⟩

/-- Go `len` on a string: its UTF-8 byte length. -/
def goLen (s : String) : Nat :=
  s.data.foldl (fun n c => n + c.utf8Size) 0

/-- The value of a non-empty list of decimal digits, `none` otherwise. -/
def digitsToNat? (cs : List Char) : Option Nat :=
  if cs ≠ [] ∧ cs.all Char.isDigit then
    some (cs.foldl (fun n c => n * 10 + (c.toNat - 48)) 0)
  else none

/-- Largest Go `int` (64-bit). -/
def maxInt64 : Int := 2 ^ 63 - 1

/-- Go `strconv.Atoi`: optional sign, then decimal digits; any other shape
or a value outside the 64-bit range is an error (`none`). -/
def goAtoi (s : String) : Option Int :=
  match s.data with
  | '+' :: rest =>
    (digitsToNat? rest).bind fun n =>
      if (n : Int) ≤ maxInt64 then some (n : Int) else none
  | '-' :: rest =>
    (digitsToNat? rest).bind fun n =>
      if (n : Int) ≤ maxInt64 + 1 then some (-(n : Int)) else none
  | cs =>
    (digitsToNat? cs).bind fun n =>
      if (n : Int) ≤ maxInt64 then some (n : Int) else none

/-- The structured content of every `error` value the library can build.
Each constructor records the data interpolated into the corresponding
`fmt.Errorf` format string of the source. -/
inductive Error where
  /-- `tag.go` `fieldValidate`: "error validating field %q: %v" — wraps a
  leaf validator's error with the field name. -/
  | fieldError (name : String) (cause : Error)
  /-- Stands for Go's `nil` rendered as `"<nil>"` inside a wrapping error
  (reachable only through a validator that returns `(false, nil)`). -/
  | nilCause
  /-- `tag.go` `vals`: "missing validator for field %q" (dead in practice:
  `strings.Split` never returns an empty slice). -/
  | missingValidator (name : String)
  /-- `tag.go`: "unknown validator %q  for field %q". -/
  | unknownValidator (id name : String)
  /-- `tag.go` `rangeFinder`: "expected 2 parameters (min, max), found: %v". -/
  | rangeParamCount (found : List String)
  /-- `tag.go` `stringParam`: "expected 1 parameter (%s), found: %v". -/
  | singleParamCount (key : String) (found : List String)
  /-- `tag.go` `stringParam`: "expected parameter %q, found: %q". -/
  | wrongKey (expected found : String)
  /-- `tag.go` `kv`: "malformed key value pair %q, expected format is
  \"key=value\"". -/
  | malformedPair (pair : String)
  /-- `tag.go`: "invalid value %q for parameter %q". -/
  | invalidValue (v k : String)
  /-- `regexp.Compile` failed with the given message. -/
  | regexCompileError (msg : String)
  /-- `IntRangeValidator`: "value %d is out of range [%d, %d]". -/
  | outOfRange (val mn mx : Int)
  /-- `CmpRangeValidator`: "value %v is out of range [%v, %v]". -/
  | cmpOutOfRange (val mn mx : String)
  /-- `NonNegativeIntValidator`: "value %d is a negative integer". -/
  | negativeValue (val : Int)
  /-- `NonPositiveIntValidator`: "value %d is a positive integer". -/
  | positiveValue (val : Int)
  /-- `NonEmptyStringValidator`: "string is empty". -/
  | emptyString
  /-- `MinLengthValidator`/`MaxLengthValidator`: "value of parameter
  \"size\" cannot be 0". -/
  | sizeZero
  /-- `LengthRangeValidator`: "\"min\" value cannot be 0". -/
  | minZero
  /-- `LengthRangeValidator`: "\"max\" value cannot be 0". -/
  | maxZero
  /-- `MinLengthValidator`: "value %s exeeds minimum length %d". -/
  | belowMinLength (val : String) (size : Int)
  /-- `MaxLengthValidator`: "value %s exeeds maximum length %d". -/
  | aboveMaxLength (val : String) (size : Int)
  /-- `LengthRangeValidator`: "value %q with length %d is not in range
  [%d, %d]". -/
  | lengthOutOfRange (val : String) (len mn mx : Int)
  /-- `RegexValidator`: "value %q does not match pattern %q". -/
  | noMatch (val pattern : String)
  /-- `AlphaNumericValidator`: "value %q is not alphanumeric". -/
  | notAlphanumeric (val : String)
  /-- `MACAddressValidator`: "invalid MAC address %q: %v". -/
  | invalidMAC (val msg : String)
  /-- `IpValidator`: "invalid IP address %q". -/
  | invalidIP (val : String)
  /-- `IPv4Validator`: "invalid IPv4 address %q". -/
  | invalidIPv4 (val : String)
  /-- `IPv6Validator`: "invalid IPv6 address %q". -/
  | invalidIPv6 (val : String)
  /-- `XMLValidator`: "XML parsing error: %w". -/
  | xmlParseError (msg : String)
  /-- `XMLValidator`: "XML document must contain at least one element". -/
  | xmlNoElement
  /-- `JSONValidator`: "invalid JSON". -/
  | invalidJSON
  /-- `UrlValidator` returns `url.ParseRequestURI`'s error as-is. -/
  | urlError (msg : String)
  /-- `EmailValidator` returns `mail.ParseAddress`'s error as-is. -/
  | emailError (msg : String)
  /-- `validator.go` `ValidatedValue.Set`: "no validator set". -/
  | noValidatorSet
  deriving DecidableEq, Repr

/-- The structured names an error value carries as a *field name*:
`true` iff the error wraps or mentions the field `n`. -/
def Error.mentionsName (e : Error) (n : String) : Bool :=
  match e with
  | .fieldError name _ => name == n
  | .missingValidator name => name == n
  | .unknownValidator _ name => name == n
  | _ => false

/-- Whether an error is the dispatcher's unknown-directive error. -/
def Error.isUnknown (e : Error) : Bool :=
  match e with
  | .unknownValidator _ _ => true
  | _ => false

/-- The Go standard-library parsers `validators.go` calls.  Their internals
are not part of this repository, so they are kept abstract; `none` /
`Except.ok` means the stdlib call succeeded.  `parseIP` returns, on
success, whether `ip.To4() != nil` (the address is representable as IPv4). -/
structure Stdlib where
  regexCompile : String → Except String String
  regexMatch : String → String → Bool
  parseRequestURI : String → Option String
  parseAddress : String → Option String
  parseMAC : String → Option String
  parseIP : String → Option Bool
  jsonValid : String → Bool
  xmlScan : String → Except String Bool

/-- An arbitrary fixed `Stdlib` instantiation, used only to state closed
facts about code paths whose outcome does not depend on the stdlib. -/
def stdlibStub : Stdlib where
  regexCompile := fun s => .ok s
  regexMatch := fun _ _ => false
  parseRequestURI := fun _ => some "parse error"
  parseAddress := fun _ => some "parse error"
  parseMAC := fun _ => some "parse error"
  parseIP := fun _ => none
  jsonValid := fun _ => false
  xmlScan := fun _ => .ok false

/-! ## Leaf validators (`validators.go`)

Each `Validate` method becomes a function `… → Bool × Option Error`,
mirroring Go's `(ok bool, err error)` result. -/

/-- `IntRangeValidator.Validate`. -/
def intRangeValidate (mn mx val : Int) : Bool × Option Error :=
  if val < mn ∨ val > mx then (false, some (.outOfRange val mn mx))
  else (true, none)

/-- `CmpRangeValidator.Validate` (generic over any ordered type;
`toString` stands for the `%v` rendering in its message). -/
def cmpRangeValidate {α : Type} [LinearOrder α] [ToString α]
    (mn mx val : α) : Bool × Option Error :=
  if val < mn ∨ mx < val then
    (false, some (.cmpOutOfRange (toString val) (toString mn) (toString mx)))
  else (true, none)

/-- `NonNegativeIntValidator.Validate`. -/
def nonNegativeValidate (val : Int) : Bool × Option Error :=
  if val < 0 then (false, some (.negativeValue val)) else (true, none)

/-- `NonPositiveIntValidator.Validate`. -/
def nonPositiveValidate (val : Int) : Bool × Option Error :=
  if val > 0 then (false, some (.positiveValue val)) else (true, none)

/-- `UrlValidator.Validate`: ok iff `url.ParseRequestURI` succeeds. -/
def urlValidate (lib : Stdlib) (val : String) : Bool × Option Error :=
  match lib.parseRequestURI val with
  | none => (true, none)
  | some msg => (false, some (.urlError msg))

/-- `EmailValidator.Validate`: ok iff `mail.ParseAddress` succeeds. -/
def emailValidate (lib : Stdlib) (val : String) : Bool × Option Error :=
  match lib.parseAddress val with
  | none => (true, none)
  | some msg => (false, some (.emailError msg))

/-- `NonEmptyStringValidator.Validate`. -/
def nonEmptyValidate (val : String) : Bool × Option Error :=
  if val = "" then (false, some .emptyString) else (true, none)

/-- `MinLengthValidator.Validate`. -/
def minLengthValidate (size : Int) (val : String) : Bool × Option Error :=
  if size = 0 then (false, some .sizeZero)
  else if (goLen val : Int) < size then (false, some (.belowMinLength val size))
  else (true, none)

/-- `MaxLengthValidator.Validate`. -/
def maxLengthValidate (size : Int) (val : String) : Bool × Option Error :=
  if size = 0 then (false, some .sizeZero)
  else if (goLen val : Int) > size then (false, some (.aboveMaxLength val size))
  else (true, none)

/-- `LengthRangeValidator.Validate`. -/
def lengthRangeValidate (mn mx : Int) (val : String) : Bool × Option Error :=
  let l : Int := goLen val
  if mn = 0 then (false, some .minZero)
  else if mx = 0 then (false, some .maxZero)
  else if l < mn ∨ l > mx then
    (false, some (.lengthOutOfRange val l mn mx))
  else (true, none)

/-- `RegexValidator.Validate`: the compiled pattern is identified by its
source text, matching is the stdlib's. -/
def regexValidate (lib : Stdlib) (pattern val : String) : Bool × Option Error :=
  if lib.regexMatch pattern val then (true, none)
  else (false, some (.noMatch val pattern))

/-- `AlphaNumericValidator.Validate`: `regexp.MatchString` against the
constant pattern `^[a-zA-Z0-9]+$` (the compile-error branch of the source
is dead, because that constant pattern always compiles). -/
def alphaNumericValidate (val : String) : Bool × Option Error :=
  let matched := !val.data.isEmpty && val.data.all fun c => c.isAlpha || c.isDigit
  if !matched then (false, some (.notAlphanumeric val)) else (true, none)

/-- `MACAddressValidator.Validate`: ok iff `net.ParseMAC` succeeds. -/
def macValidate (lib : Stdlib) (val : String) : Bool × Option Error :=
  match lib.parseMAC val with
  | none => (true, none)
  | some msg => (false, some (.invalidMAC val msg))

/-- `IpValidator.Validate`: ok iff `net.ParseIP` succeeds. -/
def ipValidate (lib : Stdlib) (val : String) : Bool × Option Error :=
  match lib.parseIP val with
  | none => (false, some (.invalidIP val))
  | some _ => (true, none)

/-- `IPv4Validator.Validate`: `net.ParseIP` must succeed and `To4()` be
non-nil. -/
def ipv4Validate (lib : Stdlib) (val : String) : Bool × Option Error :=
  match lib.parseIP val with
  | none => (false, some (.invalidIPv4 val))
  | some isV4 => if isV4 then (true, none) else (false, some (.invalidIPv4 val))

/-- `IPv6Validator.Validate`: `net.ParseIP` must succeed and `To4()` be
nil. -/
def ipv6Validate (lib : Stdlib) (val : String) : Bool × Option Error :=
  match lib.parseIP val with
  | none => (false, some (.invalidIPv6 val))
  | some isV4 => if isV4 then (false, some (.invalidIPv6 val)) else (true, none)

/-- `XMLValidator.Validate`: the token loop is abstracted as `xmlScan`,
which reports either a parse error or whether a start element was seen. -/
def xmlValidate (lib : Stdlib) (val : String) : Bool × Option Error :=
  match lib.xmlScan val with
  | .error msg => (false, some (.xmlParseError msg))
  | .ok hasElement =>
    if !hasElement then (false, some .xmlNoElement) else (true, none)

/-- `JSONValidator.Validate`: ok iff `json.Valid` accepts the bytes. -/
def jsonValidate (lib : Stdlib) (val : String) : Bool × Option Error :=
  if !lib.jsonValid val then (false, some .invalidJSON) else (true, none)

/-- `CompositeValidator.Validate`: run the members in order, returning the
first failure's result verbatim, `(true, nil)` when all pass. -/
def compositeValidate {α : Type} :
    List (α → Bool × Option Error) → α → Bool × Option Error
  | [], _ => (true, none)
  | v :: rest, x =>
    let r := v x
    if r.1 then compositeValidate rest x else (false, r.2)

/-! ## Tag parsing and dispatch (`tag.go`) -/

/-- `kv`: split the pair on `"="`; the split must yield exactly two parts,
both non-empty after trimming. -/
def kv (pair : String) : Except Error (String × String) :=
  match goSplit '=' pair with
  | [a, b] =>
    let k := goTrim a
    let v := goTrim b
    if k ≠ "" ∧ v ≠ "" then .ok (k, v) else .error (.malformedPair pair)
  | _ => .error (.malformedPair pair)

/-- The loop body of `rangeFinder`: `min` and `max` start at 0; a pair
whose key is `min` or `max` must parse as an integer and overwrites the
accumulator; a pair with any other key is ignored. -/
def rangeLoop (mn mx : Int) : List String → Except Error (Int × Int)
  | [] => .ok (mn, mx)
  | p :: rest =>
    match kv p with
    | .error e => .error e
    | .ok (k, v) =>
      if k = "min" then
        match goAtoi v with
        | some i => rangeLoop i mx rest
        | none => .error (.invalidValue v k)
      else if k = "max" then
        match goAtoi v with
        | some i => rangeLoop mn i rest
        | none => .error (.invalidValue v k)
      else rangeLoop mn mx rest

/-- `rangeFinder`: exactly two parameter tokens, then the loop above. -/
def rangeFinder (params : List String) : Except Error (Int × Int) :=
  if params.length = 2 then rangeLoop 0 0 params
  else .error (.rangeParamCount params)

/-- `stringParam`: exactly one non-empty parameter token whose key is
exactly `key`; its value is returned. -/
def stringParam (key : String) (params : List String) : Except Error String :=
  match params with
  | [p] =>
    if p = "" then .error (.singleParamCount key params)
    else
      match kv p with
      | .error e => .error e
      | .ok (k, v) => if k = key then .ok v else .error (.wrongKey key k)
  | _ => .error (.singleParamCount key params)

/-- `intParam`: `stringParam` then `strconv.Atoi`. -/
def intParam (key : String) (params : List String) : Except Error Int :=
  match stringParam key params with
  | .error e => .error e
  | .ok v =>
    match goAtoi v with
    | some i => .ok i
    | none => .error (.invalidValue v key)

/-- `patternParam`: `stringParam "pattern"` then `regexp.Compile`. -/
def patternParam (lib : Stdlib) (params : List String) : Except Error String :=
  match stringParam "pattern" params with
  | .error e => .error e
  | .ok v =>
    match lib.regexCompile v with
    | .ok p => .ok p
    | .error msg => .error (.regexCompileError msg)

/-- `fieldValidate`: run the validator; a failure is wrapped as
"error validating field %q: %v" (a `nil` cause renders as `"<nil>"`,
modelled by `Error.nilCause`). -/
def fieldValidate {α : Type} (name : String) (value : α)
    (v : α → Bool × Option Error) : Bool × Option Error :=
  let r := v value
  if r.1 then (true, none)
  else (false, some (.fieldError name (r.2.getD .nilCause)))

/-- The `switch id` of `stringValidators`: resolve a string-field directive
name and its parameter tokens to a validator, or fail. -/
def strDispatch (lib : Stdlib) (id name : String) (params : List String) :
    Except Error (String → Bool × Option Error) :=
  if id = "length" then
    match rangeFinder params with
    | .error e => .error e
    | .ok (mn, mx) => .ok (lengthRangeValidate mn mx)
  else if id = "min" then
    match intParam "size" params with
    | .error e => .error e
    | .ok size => .ok (minLengthValidate size)
  else if id = "max" then
    match intParam "size" params with
    | .error e => .error e
    | .ok size => .ok (maxLengthValidate size)
  else if id = "regex" then
    match patternParam lib params with
    | .error e => .error e
    | .ok p => .ok (regexValidate lib p)
  else if id = "alphanum" then .ok alphaNumericValidate
  else if id = "ipv4" then .ok (ipv4Validate lib)
  else if id = "ipv6" then .ok (ipv6Validate lib)
  else if id = "mac" then .ok (macValidate lib)
  else if id = "json" then .ok (jsonValidate lib)
  else if id = "xml" then .ok (xmlValidate lib)
  else if id = "url" then .ok (urlValidate lib)
  else if id = "email" then .ok (emailValidate lib)
  else if id = "!empty" then .ok nonEmptyValidate
  else .error (.unknownValidator id name)

/-- The `switch id` of `intValidators`. -/
def intDispatch (id name : String) (params : List String) :
    Except Error (Int → Bool × Option Error) :=
  if id = "range" then
    match rangeFinder params with
    | .error e => .error e
    | .ok (mn, mx) => .ok (intRangeValidate mn mx)
  else if id = "pos" then .ok nonNegativeValidate
  else if id = "neg" then .ok nonPositiveValidate
  else .error (.unknownValidator id name)

/-- The trimmed directive name of a tag: `strings.TrimSpace(vals[0])`
(`vals` in `tag.go` splits on `","`; its error branch for an empty slice
is dead, because `strings.Split` never returns an empty slice). -/
def tagHead (tag : String) : String :=
  goTrim ((goSplit ',' tag).headD "")

/-- `stringValidators`: split the tag, dispatch the directive, run the
resulting validator on the field's value. -/
def stringValidators (lib : Stdlib) (tag name value : String) :
    Bool × Option Error :=
  match strDispatch lib (tagHead tag) name (goSplit ',' tag).tail with
  | .error e => (false, some e)
  | .ok v => fieldValidate name value v

/-- `intValidators`. -/
def intValidators (tag name : String) (value : Int) : Bool × Option Error :=
  match intDispatch (tagHead tag) name (goSplit ',' tag).tail with
  | .error e => (false, some e)
  | .ok v => fieldValidate name value v

/-- A struct field as the walker sees it through reflection: its name, its
`val:"…"` tag when present, and its runtime value (the walker's `switch`
handles exactly the `string` and `int` cases). -/
inductive FieldVal where
  | int (i : Int)
  | str (s : String)
  deriving DecidableEq, Repr

/-- One field of the record under validation. -/
structure Field where
  name : String
  tag? : Option String
  val : FieldVal
  deriving Repr

/-- The per-field work of `ValidateStruct`'s loop body: untagged fields
pass silently, tagged fields go through the matching dispatcher. -/
def checkField (lib : Stdlib) (f : Field) : Bool × Option Error :=
  match f.tag? with
  | none => (true, none)
  | some tag =>
    match f.val with
    | .str v => stringValidators lib tag f.name v
    | .int v => intValidators tag f.name v

/-- `ValidateStruct`: walk the fields in declaration order, stopping at
the first failure. -/
def validateStruct (lib : Stdlib) : List Field → Bool × Option Error
  | [] => (true, none)
  | f :: rest =>
    let r := checkField lib f
    if r.1 then validateStruct lib rest else (false, r.2)

/-! ## `ValidatedValue` (`validator.go`) -/

/-- `ValidatedValue[T]`: a stored value plus an optional validator (a Go
interface value may be nil). -/
structure ValidatedValue (α : Type) where
  value : α
  validator : Option (α → Bool × Option Error)

/-- `ValidatedValue.Set`: reject when no validator is set; otherwise run
the validator and store the value only on success.  The Go method mutates
its receiver and returns only the error; here the updated state is
returned alongside it. -/
def ValidatedValue.set {α : Type} (vv : ValidatedValue α) (val : α) :
    Option Error × ValidatedValue α :=
  match vv.validator with
  | none => (some .noValidatorSet, vv)
  | some v =>
    let r := v val
    if r.1 then (none, { vv with value := val }) else (r.2, vv)

/-- `ValidatedValue.Get`. -/
def ValidatedValue.get {α : Type} (vv : ValidatedValue α) : α :=
  vv.value

/-! ## Predicates used by the statements -/

/-- The `(ok, err)` contract of §6: a `true` result carries no error and a
`false` result carries a non-nil error. -/
def resultInvariant (r : Bool × Option Error) : Prop :=
  r.1 = true ↔ r.2 = none

/-- Whether a `(ok, err)` result's error is the unknown-directive error. -/
def resUnknown (r : Bool × Option Error) : Bool :=
  match r.2 with
  | some e => e.isUnknown
  | none => false

/-- A fallible computation that never fails with the unknown-directive
error. -/
def exceptNoUnknown {β : Type} (x : Except Error β) : Prop :=
  ∀ e, x = .error e → e.isUnknown = false

/-- The string-field directive names `tag.go` dispatches on. -/
def stringDirectiveNames : List String :=
  ["length", "min", "max", "regex", "alphanum", "ipv4", "ipv6", "mac",
   "json", "xml", "url", "email", "!empty"]

/-- The int-field directive names `tag.go` dispatches on. -/
def intDirectiveNames : List String :=
  ["range", "pos", "neg"]

/-! ## Helper lemmas -/

/-- `kv` on the empty token fails. -/
theorem kv_empty : kv "" = .error (.malformedPair "") := rfl

/-- Every error `kv` produces is the malformed-pair error for its token. -/
theorem kv_error_eq (p : String) (e : Error) (h : kv p = .error e) :
    e = .malformedPair p := by
  unfold kv at h
  split at h
  · simp only [ne_eq] at h
    split at h
    · exact Except.noConfusion h
    · exact (Except.error.inj h).symm
  · exact (Except.error.inj h).symm

/-- The success condition of `rangeLoop` does not depend on the
accumulator: it succeeds iff every token is a well-formed pair whose value
parses as an integer whenever its key is recognized. -/
theorem rangeLoop_ok_iff (ps : List String) : ∀ mn mx : Int,
    (∃ r, rangeLoop mn mx ps = .ok r) ↔
      ∀ p ∈ ps, ∃ k v, kv p = .ok (k, v) ∧
        ((k = "min" ∨ k = "max") → (goAtoi v).isSome = true) := by
  induction ps with
  | nil => intro mn mx; simp [rangeLoop]
  | cons p rest ih =>
    intro mn mx
    simp only [List.mem_cons, forall_eq_or_imp, rangeLoop]
    cases hkv : kv p with
    | error e => simp [hkv]
    | ok kvp =>
      obtain ⟨k, v⟩ := kvp
      by_cases hmin : k = "min"
      · subst hmin
        cases hat : goAtoi v with
        | none => simp [hkv, hat]
        | some i =>
          simp [hkv, hat, ih]
          exact fun _ => ⟨"min", v, ⟨rfl, rfl⟩, fun _ => by simp [hat]⟩
      · by_cases hmax : k = "max"
        · subst hmax
          cases hat : goAtoi v with
          | none => simp [hkv, hat]
          | some i =>
            simp [hkv, hat, ih, hmin]
            exact fun _ => ⟨"max", v, ⟨rfl, rfl⟩, fun _ => by simp [hat]⟩
        · simp [hkv, hmin, hmax, ih]
          exact fun _ => ⟨k, v, ⟨rfl, rfl⟩, fun hc => absurd hc (not_or.mpr ⟨hmin, hmax⟩)⟩

/-- `rangeLoop` never fails with the unknown-directive error, whatever the
accumulator. -/
theorem rangeLoop_no_unknown (ps : List String) : ∀ mn mx : Int,
    exceptNoUnknown (rangeLoop mn mx ps) := by
  induction ps with
  | nil => intro mn mx e h; exact Except.noConfusion h
  | cons p rest ih =>
    intro mn mx e h
    simp only [rangeLoop] at h
    cases hkv : kv p with
    | error e' =>
      simp only [hkv] at h
      rw [← Except.error.inj h, kv_error_eq p e' hkv]; rfl
    | ok kvp =>
      obtain ⟨k, v⟩ := kvp
      simp only [hkv] at h
      by_cases hmin : k = "min"
      · rw [if_pos hmin] at h
        cases hat : goAtoi v with
        | some i => simp only [hat] at h; exact ih i mx e h
        | none =>
          simp only [hat] at h
          rw [← Except.error.inj h]; rfl
      · rw [if_neg hmin] at h
        by_cases hmax : k = "max"
        · rw [if_pos hmax] at h
          cases hat : goAtoi v with
          | some i => simp only [hat] at h; exact ih mn i e h
          | none =>
            simp only [hat] at h
            rw [← Except.error.inj h]; rfl
        · rw [if_neg hmax] at h
          exact ih mn mx e h

/-- `rangeFinder` never fails with the unknown-directive error. -/
theorem rangeFinder_no_unknown (params : List String) :
    exceptNoUnknown (rangeFinder params) := by
  intro e h
  unfold rangeFinder at h
  split at h
  · exact rangeLoop_no_unknown params 0 0 e h
  · rw [← Except.error.inj h]; rfl

/-- `stringParam` never fails with the unknown-directive error. -/
theorem stringParam_no_unknown (key : String) (params : List String) :
    exceptNoUnknown (stringParam key params) := by
  intro e h
  unfold stringParam at h
  split at h
  next p =>
    split at h
    · rw [← Except.error.inj h]; rfl
    · cases hkv : kv p with
      | error e' =>
        simp only [hkv] at h
        rw [← Except.error.inj h, kv_error_eq p e' hkv]; rfl
      | ok kvp =>
        obtain ⟨k, v⟩ := kvp
        simp only [hkv] at h
        split at h
        · exact Except.noConfusion h
        · rw [← Except.error.inj h]; rfl
  next => rw [← Except.error.inj h]; rfl

/-- `intParam` never fails with the unknown-directive error. -/
theorem intParam_no_unknown (key : String) (params : List String) :
    exceptNoUnknown (intParam key params) := by
  intro e h
  unfold intParam at h
  cases hsp : stringParam key params with
  | error e' =>
    simp only [hsp] at h
    rw [← Except.error.inj h]
    exact stringParam_no_unknown key params e' hsp
  | ok v =>
    simp only [hsp] at h
    cases hat : goAtoi v with
    | some i => simp only [hat] at h; exact Except.noConfusion h
    | none => simp only [hat] at h; rw [← Except.error.inj h]; rfl

/-- `patternParam` never fails with the unknown-directive error. -/
theorem patternParam_no_unknown (lib : Stdlib) (params : List String) :
    exceptNoUnknown (patternParam lib params) := by
  intro e h
  unfold patternParam at h
  cases hsp : stringParam "pattern" params with
  | error e' =>
    simp only [hsp] at h
    rw [← Except.error.inj h]
    exact stringParam_no_unknown "pattern" params e' hsp
  | ok v =>
    simp only [hsp] at h
    cases hrc : Stdlib.regexCompile lib v with
    | ok pat => simp only [hrc] at h; exact Except.noConfusion h
    | error msg => simp only [hrc] at h; rw [← Except.error.inj h]; rfl

/-- A `fieldValidate` result never carries the unknown-directive error. -/
theorem fieldValidate_not_unknown {α : Type} (name : String) (value : α)
    (v : α → Bool × Option Error) :
    resUnknown (fieldValidate name value v) = false := by
  by_cases h : (v value).1
  · simp [fieldValidate, resUnknown, h]
  · simp only [Bool.not_eq_true] at h
    simp [fieldValidate, resUnknown, h, Error.isUnknown]

/-- A directive name outside the vocabulary dispatches to the
unknown-validator error (string fields). -/
theorem strDispatch_not_mem (lib : Stdlib) (id name : String)
    (params : List String) (h : id ∉ stringDirectiveNames) :
    strDispatch lib id name params = .error (.unknownValidator id name) := by
  simp only [stringDirectiveNames, List.mem_cons, List.not_mem_nil, or_false,
    not_or] at h
  obtain ⟨h1, h2, h3, h4, h5, h6, h7, h8, h9, h10, h11, h12, h13⟩ := h
  unfold strDispatch
  rw [if_neg h1, if_neg h2, if_neg h3, if_neg h4, if_neg h5, if_neg h6,
    if_neg h7, if_neg h8, if_neg h9, if_neg h10, if_neg h11, if_neg h12,
    if_neg h13]

/-- A directive name inside the vocabulary never produces the
unknown-validator error (string fields). -/
theorem strDispatch_mem_no_unknown (lib : Stdlib) (id name : String)
    (params : List String) (h : id ∈ stringDirectiveNames) :
    exceptNoUnknown (strDispatch lib id name params) := by
  intro e he
  simp only [stringDirectiveNames, List.mem_cons, List.not_mem_nil,
    or_false] at h
  rcases h with rfl | rfl | rfl | rfl | rfl | rfl | rfl | rfl | rfl | rfl |
    rfl | rfl | rfl
  · simp only [strDispatch] at he
    cases hr : rangeFinder params with
    | error e' =>
      simp only [hr] at he
      rw [← Except.error.inj he]
      exact rangeFinder_no_unknown params e' hr
    | ok r =>
      obtain ⟨mn, mx⟩ := r
      simp only [hr] at he
      exact Except.noConfusion he
  · simp only [strDispatch] at he
    cases hr : intParam "size" params with
    | error e' =>
      simp only [hr] at he
      rw [← Except.error.inj he]
      exact intParam_no_unknown "size" params e' hr
    | ok size =>
      simp only [hr] at he
      exact Except.noConfusion he
  · simp only [strDispatch] at he
    cases hr : intParam "size" params with
    | error e' =>
      simp only [hr] at he
      rw [← Except.error.inj he]
      exact intParam_no_unknown "size" params e' hr
    | ok size =>
      simp only [hr] at he
      exact Except.noConfusion he
  · simp only [strDispatch] at he
    cases hr : patternParam lib params with
    | error e' =>
      simp only [hr] at he
      rw [← Except.error.inj he]
      exact patternParam_no_unknown lib params e' hr
    | ok pat =>
      simp only [hr] at he
      exact Except.noConfusion he
  · exact Except.noConfusion he
  · exact Except.noConfusion he
  · exact Except.noConfusion he
  · exact Except.noConfusion he
  · exact Except.noConfusion he
  · exact Except.noConfusion he
  · exact Except.noConfusion he
  · exact Except.noConfusion he
  · exact Except.noConfusion he

/-- A directive name outside the vocabulary dispatches to the
unknown-validator error (int fields). -/
theorem intDispatch_not_mem (id name : String) (params : List String)
    (h : id ∉ intDirectiveNames) :
    intDispatch id name params = .error (.unknownValidator id name) := by
  simp only [intDirectiveNames, List.mem_cons, List.not_mem_nil, or_false,
    not_or] at h
  obtain ⟨h1, h2, h3⟩ := h
  unfold intDispatch
  rw [if_neg h1, if_neg h2, if_neg h3]

/-- A directive name inside the vocabulary never produces the
unknown-validator error (int fields). -/
theorem intDispatch_mem_no_unknown (id name : String) (params : List String)
    (h : id ∈ intDirectiveNames) :
    exceptNoUnknown (intDispatch id name params) := by
  intro e he
  simp only [intDirectiveNames, List.mem_cons, List.not_mem_nil, or_false] at h
  rcases h with rfl | rfl | rfl
  · simp only [intDispatch] at he
    cases hr : rangeFinder params with
    | error e' =>
      simp only [hr] at he
      rw [← Except.error.inj he]
      exact rangeFinder_no_unknown params e' hr
    | ok r =>
      obtain ⟨mn, mx⟩ := r
      simp only [hr] at he
      exact Except.noConfusion he
  · exact Except.noConfusion he
  · exact Except.noConfusion he

/-- Splitting a list without the separator yields one group. -/
theorem splitChar_of_not_mem {c : Char} {cs : List Char} (h : c ∉ cs) :
    splitChar c cs = [cs] := by
  induction cs with
  | nil => rfl
  | cons x rest ih =>
    have hxc : ¬x = c := fun hx => h (by rw [hx]; exact List.mem_cons_self c rest)
    simp only [splitChar, if_neg hxc]
    rw [ih fun hm => h (List.mem_cons_of_mem x hm)]

/-- Splitting at the first separator occurrence peels off the prefix. -/
theorem splitChar_append (c : Char) (a b : List Char) (h : c ∉ a) :
    splitChar c (a ++ c :: b) = a :: splitChar c b := by
  induction a with
  | nil => simp [splitChar]
  | cons x rest ih =>
    have hxc : ¬x = c := fun hx => h (by rw [hx]; exact List.mem_cons_self c rest)
    simp only [List.cons_append, splitChar, if_neg hxc, List.append_eq]
    rw [ih fun hm => h (List.mem_cons_of_mem x hm)]

/-- A token with exactly one `=` splits into its two sides. -/
theorem goSplit_pair (a b : String) (ha : '=' ∉ a.data) (hb : '=' ∉ b.data) :
    goSplit '=' (a ++ "=" ++ b) = [a, b] := by
  unfold goSplit
  have hdata : (a ++ "=" ++ b).data = a.data ++ '=' :: b.data := by
    simp [String.data_append, List.append_assoc]
  rw [hdata, splitChar_append '=' a.data b.data ha, splitChar_of_not_mem hb]
  rfl

/-- A token with exactly two `=` splits into three parts. -/
theorem goSplit_triple (a b c : String) (ha : '=' ∉ a.data)
    (hb : '=' ∉ b.data) (hc : '=' ∉ c.data) :
    goSplit '=' (a ++ "=" ++ b ++ "=" ++ c) = [a, b, c] := by
  unfold goSplit
  have hdata : (a ++ "=" ++ b ++ "=" ++ c).data =
      a.data ++ '=' :: (b.data ++ '=' :: c.data) := by
    simp [String.data_append, List.append_assoc]
  rw [hdata, splitChar_append '=' a.data _ ha,
    splitChar_append '=' b.data c.data hb, splitChar_of_not_mem hc]
  rfl

/-! ## The claims -/

/-- **C4** (as stated): the parameter token `key=va=lue` is *not* accepted
with `va=lue` as its value — the split on `=` yields three parts and `kv`
rejects the token as malformed. -/
theorem c4_double_eq_counterexample :
    kv "key=va=lue" = .error (.malformedPair "key=va=lue") := rfl

/-- **C4** (amended): `kv` splits the token on every `=` and accepts it
only when that yields exactly two parts — so exactly one `=` in the token
— both non-empty after trimming; a token with no `=`, or with two or more
(such as `key=va=lue`), or with an empty side, fails with the
malformed-parameter error. -/
theorem c4_kv_split :
    (∀ a b : String, '=' ∉ a.data → '=' ∉ b.data →
      kv (a ++ "=" ++ b) =
        if goTrim a ≠ "" ∧ goTrim b ≠ "" then .ok (goTrim a, goTrim b)
        else .error (.malformedPair (a ++ "=" ++ b))) ∧
    (∀ s : String, '=' ∉ s.data → kv s = .error (.malformedPair s)) ∧
    (∀ a b c : String, '=' ∉ a.data → '=' ∉ b.data → '=' ∉ c.data →
      kv (a ++ "=" ++ b ++ "=" ++ c) =
        .error (.malformedPair (a ++ "=" ++ b ++ "=" ++ c))) := by
  refine ⟨?_, ?_, ?_⟩
  · intro a b ha hb
    unfold kv
    rw [goSplit_pair a b ha hb]
  · intro s hs
    have hsplit : goSplit '=' s = [s] := by
      unfold goSplit
      rw [splitChar_of_not_mem hs]
      rfl
    unfold kv
    rw [hsplit]
  · intro a b c ha hb hc
    unfold kv
    rw [goSplit_triple a b c ha hb hc]

/-- Witness for C4: a one-`=` token with both sides non-empty is accepted
with the trimmed sides. -/
theorem c4_kv_split_witness :
    kv ("key" ++ "=" ++ "va lue") = .ok ("key", "va lue") := by
  have h := c4_kv_split.1 "key" "va lue" (by decide) (by decide)
  exact h.trans (by rfl)

/-- **C2** (as stated): `ip` is in the spec's string vocabulary, but the
code has no `ip` case — dispatching it fails with the unknown-validator
error. -/
theorem c2_ip_counterexample :
    stringValidators stdlibStub "ip" "F" "192.168.1.1" =
      (false, some (.unknownValidator "ip" "F")) := rfl

/-- **C2** (amended): for every tag, the dispatcher fails with the
unknown-directive error exactly when the trimmed directive name is outside
the code's vocabulary — for string fields `length, min, max, regex,
alphanum, ipv4, ipv6, mac, json, xml, url, email, !empty` (there is no
`ip` directive), for int fields `range, pos, neg`. -/
theorem c2_vocabulary :
    (∀ (lib : Stdlib) (tag name value : String),
      resUnknown (stringValidators lib tag name value) = true ↔
        tagHead tag ∉ stringDirectiveNames) ∧
    (∀ (tag name : String) (value : Int),
      resUnknown (intValidators tag name value) = true ↔
        tagHead tag ∉ intDirectiveNames) := by
  constructor
  · intro lib tag name value
    constructor
    · intro h hmem
      unfold stringValidators at h
      cases hd : strDispatch lib (tagHead tag) name (goSplit ',' tag).tail with
      | error e =>
        simp only [hd] at h
        have h' : e.isUnknown = true := h
        have hfalse : e.isUnknown = false :=
          strDispatch_mem_no_unknown lib (tagHead tag) name _ hmem e hd
        rw [hfalse] at h'
        exact Bool.noConfusion h'
      | ok v =>
        simp only [hd] at h
        rw [fieldValidate_not_unknown name value v] at h
        exact Bool.noConfusion h
    · intro hmem
      unfold stringValidators
      rw [strDispatch_not_mem lib (tagHead tag) name _ hmem]
      rfl
  · intro tag name value
    constructor
    · intro h hmem
      unfold intValidators at h
      cases hd : intDispatch (tagHead tag) name (goSplit ',' tag).tail with
      | error e =>
        simp only [hd] at h
        have h' : e.isUnknown = true := h
        have hfalse : e.isUnknown = false :=
          intDispatch_mem_no_unknown (tagHead tag) name _ hmem e hd
        rw [hfalse] at h'
        exact Bool.noConfusion h'
      | ok v =>
        simp only [hd] at h
        rw [fieldValidate_not_unknown name value v] at h
        exact Bool.noConfusion h
    · intro hmem
      unfold intValidators
      rw [intDispatch_not_mem (tagHead tag) name _ hmem]
      rfl

/-- **C1** (as stated): with `Word` annotated by the spec's spelling
`lengthrange,min=4,max=6`, overall validation does *not* succeed: the code
knows no directive named `lengthrange` and fails with the
unknown-validator error, even though `Number = 5` passes. -/
theorem c1_lengthrange_counterexample :
    validateStruct stdlibStub
      [⟨"Number", some "range,min=4,max=6", .int 5⟩,
       ⟨"Word", some "lengthrange,min=4,max=6", .str "Pluk"⟩] =
      (false, some (.unknownValidator "lengthrange" "Word")) := rfl

/-- **C1** (amended): the length-range directive is spelled `length` in
the code.  With `Number:int` annotated `range,min=4,max=6` holding `5` and
`Word:string` annotated `length,min=4,max=6` holding `"Pluk"`, validation
succeeds; changing `Number` to `7` makes `ValidateStruct` fail with an
error that names the field `Number`. -/
theorem c1_end_to_end : ∀ lib : Stdlib,
    validateStruct lib
      [⟨"Number", some "range,min=4,max=6", .int 5⟩,
       ⟨"Word", some "length,min=4,max=6", .str "Pluk"⟩] = (true, none) ∧
    validateStruct lib
      [⟨"Number", some "range,min=4,max=6", .int 7⟩,
       ⟨"Word", some "length,min=4,max=6", .str "Pluk"⟩] =
      (false, some (.fieldError "Number" (.outOfRange 7 4 6))) ∧
    (Error.fieldError "Number" (.outOfRange 7 4 6)).mentionsName "Number" = true :=
  fun _ => ⟨rfl, rfl, rfl⟩

/-- **C3** (as stated): `range` resolution does not reject unrecognized or
missing keys — two well-formed pairs with alien keys resolve to the
defaults `min = 0, max = 0`, and the resulting validator is then run:
validating `0` against `range,foo=1,bar=2` succeeds outright. -/
theorem c3_defaults_counterexample :
    rangeFinder ["foo=1", "bar=2"] = .ok (0, 0) ∧
    intValidators "range,foo=1,bar=2" "F" 0 = (true, none) :=
  ⟨rfl, rfl⟩

/-- **C3** (amended): the single-key directives (`size`, `pattern`) do
require exactly one parameter with exactly the required key; but `range`
checks only that exactly two well-formed `key=value` tokens are present —
keys other than `min`/`max` are ignored and a missing bound silently
defaults to 0. -/
theorem c3_param_resolution :
    (∀ (key : String) (params : List String) (v : String),
      stringParam key params = .ok v ↔
        ∃ p, params = [p] ∧ kv p = .ok (key, v)) ∧
    (∀ params : List String,
      (∃ r, rangeFinder params = .ok r) ↔
        params.length = 2 ∧
          ∀ p ∈ params, ∃ k v, kv p = .ok (k, v) ∧
            ((k = "min" ∨ k = "max") → (goAtoi v).isSome = true)) ∧
    rangeFinder ["a=1", "b=2"] = .ok (0, 0) := by
  refine ⟨?_, ?_, rfl⟩
  · intro key params v
    constructor
    · intro h
      match params with
      | [] => simp [stringParam] at h
      | p :: q :: rest => simp [stringParam] at h
      | [p] =>
        refine ⟨p, rfl, ?_⟩
        simp only [stringParam] at h
        by_cases hp : p = ""
        · simp [hp] at h
        · rw [if_neg hp] at h
          cases hkv : kv p with
          | error e =>
            simp only [hkv] at h
            exact Except.noConfusion h
          | ok kvp =>
            obtain ⟨k, v'⟩ := kvp
            simp only [hkv] at h
            by_cases hk : k = key
            · subst hk
              rw [if_pos rfl] at h
              rw [Except.ok.inj h]
            · rw [if_neg hk] at h; exact Except.noConfusion h
    · rintro ⟨p, rfl, hkv⟩
      have hp : p ≠ "" := by
        rintro rfl
        rw [kv_empty] at hkv
        exact Except.noConfusion hkv
      simp only [stringParam]
      rw [if_neg hp]
      simp [hkv]
  · intro params
    unfold rangeFinder
    by_cases h2 : params.length = 2
    · simp only [h2, if_pos rfl, true_and]
      exact rangeLoop_ok_iff params 0 0
    · simp [h2]

/-- **C7**: `IntRangeValidator{min,max}` accepts every `v` with
`min ≤ v ≤ max` and rejects `min-1` and `max+1` (both bounds inclusive). -/
theorem c7_int_range :
    (∀ mn mx v : Int, mn ≤ v → v ≤ mx →
      intRangeValidate mn mx v = (true, none)) ∧
    (∀ mn mx : Int, (intRangeValidate mn mx (mn - 1)).1 = false ∧
      (intRangeValidate mn mx (mx + 1)).1 = false) := by
  constructor
  · intro mn mx v h1 h2
    unfold intRangeValidate
    rw [if_neg (by omega)]
  · intro mn mx
    constructor
    · unfold intRangeValidate
      rw [if_pos (Or.inl (by omega))]
    · unfold intRangeValidate
      rw [if_pos (Or.inr (by omega))]

/-- Witness for C7 at `min = 4, max = 6`: `5` passes, `3` and `7` fail. -/
theorem c7_int_range_witness :
    intRangeValidate 4 6 5 = (true, none) ∧
    (intRangeValidate 4 6 3).1 = false ∧
    (intRangeValidate 4 6 7).1 = false :=
  ⟨c7_int_range.1 4 6 5 (by decide) (by decide),
   by simpa using (c7_int_range.2 4 6).1,
   by simpa using (c7_int_range.2 4 6).2⟩

/-- **C8**: a zero bound makes the min-length, max-length and length-range
validators fail with a configuration error on every input — never a
vacuous pass. -/
theorem c8_zero_bound :
    (∀ val, minLengthValidate 0 val = (false, some .sizeZero)) ∧
    (∀ val, maxLengthValidate 0 val = (false, some .sizeZero)) ∧
    (∀ (mn mx : Int) (val : String), mn = 0 ∨ mx = 0 →
      (lengthRangeValidate mn mx val).1 = false ∧
      ((lengthRangeValidate mn mx val).2 = some .minZero ∨
       (lengthRangeValidate mn mx val).2 = some .maxZero)) := by
  refine ⟨fun val => rfl, fun val => rfl, ?_⟩
  intro mn mx val h
  unfold lengthRangeValidate
  by_cases hmn : mn = 0
  · simp [hmn]
  · have hmx : mx = 0 := h.resolve_left hmn
    simp [hmn, hmx]

/-- Witness for C8: `MaxLength{0}` rejects even the empty string, and
`LengthRange{3,0}` rejects `"abc"`. -/
theorem c8_zero_bound_witness :
    maxLengthValidate 0 "" = (false, some .sizeZero) ∧
    (lengthRangeValidate 3 0 "abc").1 = false :=
  ⟨c8_zero_bound.2.1 "", (c8_zero_bound.2.2 3 0 "abc" (Or.inr rfl)).1⟩

/-- **C10** (as stated): a validator that breaks the `Validate` contract
by returning `(false, nil)` makes `Set` return a nil error while leaving
the stored value unchanged, so `Get` returns the old value `0`, not the
argument `1`. -/
theorem c10_set_counterexample :
    ((ValidatedValue.mk (0 : Int) (some fun _ => (false, none))).set 1).1 = none ∧
    (((ValidatedValue.mk (0 : Int) (some fun _ => (false, none))).set 1).2).get = 0 :=
  ⟨rfl, rfl⟩

/-- **C10** (amended): a `Set` that returns a non-nil error leaves the
state unchanged; a rejected value is never stored; and when the configured
validator honours the contract that a `false` result carries a non-nil
error, `Set` returning nil means the argument is now stored. -/
theorem c10_set_get :
    (∀ (α : Type) (vv : ValidatedValue α) (val : α) (e : Error)
        (vv' : ValidatedValue α), vv.set val = (some e, vv') → vv' = vv) ∧
    (∀ (α : Type) (vv : ValidatedValue α) (val : α)
        (v : α → Bool × Option Error), vv.validator = some v →
        (v val).1 = false → ((vv.set val).2).get = vv.get) ∧
    (∀ (α : Type) (vv : ValidatedValue α) (val : α),
        (∀ u, vv.validator = some u → ∀ y, (u y).1 = false → (u y).2 ≠ none) →
        (vv.set val).1 = none → ((vv.set val).2).get = val) := by
  refine ⟨?_, ?_, ?_⟩
  · intro α vv val e vv' h
    cases hv : vv.validator with
    | none =>
      simp only [ValidatedValue.set, hv] at h
      exact (Prod.mk.inj h).2.symm
    | some v =>
      simp only [ValidatedValue.set, hv] at h
      by_cases hok : (v val).1
      · simp [hok] at h
      · simp only [Bool.not_eq_true] at hok
        simp only [hok, Bool.false_eq_true, if_false, Prod.mk.injEq] at h
        exact h.2.symm
  · intro α vv val v hv hfail
    simp only [ValidatedValue.set, ValidatedValue.get, hv]
    simp [hfail]
  · intro α vv val hcontract h
    cases hv : vv.validator with
    | none => simp [ValidatedValue.set, hv] at h
    | some v =>
      simp only [ValidatedValue.set, hv] at h ⊢
      by_cases hok : (v val).1
      · simp [hok, ValidatedValue.get]
      · simp only [Bool.not_eq_true] at hok
        simp only [hok, Bool.false_eq_true, if_false] at h
        exact absurd h (hcontract v hv val hok)

/-- **C5** (as stated): a field can fail without the error naming it.
With `Number` annotated `range,min=a,max=6`, the walker stops at `Number`
and returns false, but the error is the raw invalid-parameter-value error,
which carries no field name. -/
theorem c5_unwrapped_counterexample :
    validateStruct stdlibStub [⟨"Number", some "range,min=a,max=6", .int 5⟩] =
      (false, some (.invalidValue "a" "min")) ∧
    (Error.invalidValue "a" "min").mentionsName "Number" = false :=
  ⟨rfl, rfl⟩

/-- **C5** (amended): the walker visits fields in declaration order, skips
unannotated fields (they cannot fail), stops at the first field whose
check fails and returns false with that check's error without evaluating
any later field, and returns `(true, nil)` iff every field's check passes;
when the failure is the *validator* rejecting the value, the error wraps
the cause and names the field — directive-resolution errors are returned
as-is and need not name it. -/
theorem c5_walker :
    (∀ (lib : Stdlib) (fields : List Field),
      validateStruct lib fields = (true, none) ↔
        ∀ f ∈ fields, (checkField lib f).1 = true) ∧
    (∀ (lib : Stdlib) (pre : List Field) (f : Field) (post : List Field),
      (∀ g ∈ pre, (checkField lib g).1 = true) → (checkField lib f).1 = false →
      validateStruct lib (pre ++ f :: post) = (false, (checkField lib f).2)) ∧
    (∀ (lib : Stdlib) (f : Field), f.tag? = none →
      checkField lib f = (true, none)) ∧
    (∀ (α : Type) (name : String) (value : α) (v : α → Bool × Option Error),
      (v value).1 = false →
      fieldValidate name value v =
        (false, some (.fieldError name ((v value).2.getD .nilCause)))) := by
  refine ⟨?_, ?_, ?_, ?_⟩
  · intro lib fields
    induction fields with
    | nil => simp [validateStruct]
    | cons f rest ih =>
      simp only [validateStruct, List.mem_cons, forall_eq_or_imp]
      by_cases hf : (checkField lib f).1
      · simp [hf, ih]
      · simp only [Bool.not_eq_true] at hf
        simp [hf]
  · intro lib pre f post
    induction pre with
    | nil =>
      intro _ hf
      simp only [List.nil_append, validateStruct]
      simp [hf]
    | cons g pre' ih =>
      intro hpre hf
      have hg := hpre g (List.mem_cons_self g pre')
      simp only [List.cons_append, validateStruct]
      rw [if_pos hg]
      exact ih (fun x hx => hpre x (List.mem_cons_of_mem g hx)) hf
  · intro lib f h
    simp [checkField, h]
  · intro α name value v h
    simp [fieldValidate, h]

/-- Witness for C5: an unannotated field passes silently, the walker
stops at `Number = 99` and wraps its out-of-range error with the field
name, and the later failing field is never reached. -/
theorem c5_walker_witness :
    validateStruct stdlibStub
      [⟨"Skipped", none, .str "anything"⟩,
       ⟨"Number", some "range,min=4,max=6", .int 99⟩,
       ⟨"Later", some "pos", .int (-1)⟩] =
      (false, some (.fieldError "Number" (.outOfRange 99 4 6))) := by
  have h := c5_walker.2.1 stdlibStub [⟨"Skipped", none, .str "anything"⟩]
    ⟨"Number", some "range,min=4,max=6", .int 99⟩
    [⟨"Later", some "pos", .int (-1)⟩] (by decide) (by decide)
  exact h.trans (by decide)

/-- **C6**: the composite validator passes iff every member passes, and a
failure is exactly the first failing member's result, later members never
being reached; on `[NonEmpty, MinLength{3}]` the inputs `""`, `"ab"`,
`"abc"` give the non-empty error, the min-length error, and success. -/
theorem c6_composite :
    (∀ (α : Type) (vs : List (α → Bool × Option Error)) (x : α),
      (compositeValidate vs x).1 = true ↔ ∀ v ∈ vs, (v x).1 = true) ∧
    (∀ (α : Type) (pre : List (α → Bool × Option Error))
        (v : α → Bool × Option Error) (post : List (α → Bool × Option Error))
        (x : α),
      (∀ u ∈ pre, (u x).1 = true) → (v x).1 = false →
      compositeValidate (pre ++ v :: post) x = (false, (v x).2)) ∧
    compositeValidate [nonEmptyValidate, minLengthValidate 3] "" =
      (false, some .emptyString) ∧
    compositeValidate [nonEmptyValidate, minLengthValidate 3] "ab" =
      (false, some (.belowMinLength "ab" 3)) ∧
    compositeValidate [nonEmptyValidate, minLengthValidate 3] "abc" =
      (true, none) := by
  refine ⟨?_, ?_, rfl, rfl, rfl⟩
  · intro α vs x
    induction vs with
    | nil => simp [compositeValidate]
    | cons v rest ih =>
      simp only [compositeValidate, List.mem_cons, forall_eq_or_imp]
      by_cases hv : (v x).1
      · simp [hv, ih]
      · simp only [Bool.not_eq_true] at hv
        simp [hv]
  · intro α pre v post x
    induction pre with
    | nil =>
      intro _ hfail
      simp only [List.nil_append, compositeValidate]
      simp [hfail]
    | cons u pre' ih =>
      intro hpre hfail
      have hu := hpre u (List.mem_cons_self u pre')
      simp only [List.cons_append, compositeValidate]
      rw [if_pos hu]
      exact ih (fun w hw => hpre w (List.mem_cons_of_mem u hw)) hfail

/-- Witness for C6: `[NonNegative, IntRange{0,100}]` on `150` passes the
first member and fails with the range member's error. -/
theorem c6_composite_witness :
    compositeValidate [nonNegativeValidate, intRangeValidate 0 100] 150 =
      (false, some (.outOfRange 150 0 100)) := by
  have h := c6_composite.2.1 Int [nonNegativeValidate] (intRangeValidate 0 100)
    [] 150 (by decide) (by decide)
  exact h.trans (by decide)

/-- **C9**: every validator's result satisfies the contract — ok implies
no error and failure implies a non-nil error — and the composite validator
preserves it. -/
theorem c9_result_invariant :
    (∀ (α : Type) (vs : List (α → Bool × Option Error)) (x : α),
      (∀ v ∈ vs, ∀ y, resultInvariant (v y)) →
      resultInvariant (compositeValidate vs x)) ∧
    (∀ mn mx v : Int, resultInvariant (intRangeValidate mn mx v)) ∧
    (∀ (α : Type) [LinearOrder α] [ToString α] (mn mx v : α),
      resultInvariant (cmpRangeValidate mn mx v)) ∧
    (∀ v : Int, resultInvariant (nonNegativeValidate v)) ∧
    (∀ v : Int, resultInvariant (nonPositiveValidate v)) ∧
    (∀ (lib : Stdlib) (s : String), resultInvariant (urlValidate lib s)) ∧
    (∀ (lib : Stdlib) (s : String), resultInvariant (emailValidate lib s)) ∧
    (∀ s : String, resultInvariant (nonEmptyValidate s)) ∧
    (∀ (size : Int) (s : String), resultInvariant (minLengthValidate size s)) ∧
    (∀ (size : Int) (s : String), resultInvariant (maxLengthValidate size s)) ∧
    (∀ (mn mx : Int) (s : String), resultInvariant (lengthRangeValidate mn mx s)) ∧
    (∀ (lib : Stdlib) (p s : String), resultInvariant (regexValidate lib p s)) ∧
    (∀ s : String, resultInvariant (alphaNumericValidate s)) ∧
    (∀ (lib : Stdlib) (s : String), resultInvariant (macValidate lib s)) ∧
    (∀ (lib : Stdlib) (s : String), resultInvariant (ipValidate lib s)) ∧
    (∀ (lib : Stdlib) (s : String), resultInvariant (ipv4Validate lib s)) ∧
    (∀ (lib : Stdlib) (s : String), resultInvariant (ipv6Validate lib s)) ∧
    (∀ (lib : Stdlib) (s : String), resultInvariant (xmlValidate lib s)) ∧
    (∀ (lib : Stdlib) (s : String), resultInvariant (jsonValidate lib s)) := by
  refine ⟨?_, ?_, ?_, ?_, ?_, ?_, ?_, ?_, ?_, ?_, ?_, ?_, ?_, ?_, ?_, ?_, ?_, ?_, ?_⟩
  · intro α vs x hmem
    induction vs with
    | nil => simp [compositeValidate, resultInvariant]
    | cons v rest ih =>
      simp only [compositeValidate]
      by_cases hv : (v x).1
      · rw [if_pos hv]
        exact ih fun w hw y => hmem w (List.mem_cons_of_mem v hw) y
      · simp only [Bool.not_eq_true] at hv
        rw [if_neg (by simp [hv])]
        unfold resultInvariant
        constructor
        · intro h1; exact absurd h1 (by simp)
        · intro h2
          have hinv := hmem v (List.mem_cons_self v rest) x
          have hvx : (v x).2 = none := h2
          have htrue : (v x).1 = true := Iff.mpr hinv hvx
          rw [hv] at htrue
          exact absurd htrue (by simp)
  · intro mn mx v; unfold intRangeValidate resultInvariant; split <;> simp
  · intro α _ _ mn mx v; unfold cmpRangeValidate resultInvariant; split <;> simp
  · intro v; unfold nonNegativeValidate resultInvariant; split <;> simp
  · intro v; unfold nonPositiveValidate resultInvariant; split <;> simp
  · intro lib s; cases h : lib.parseRequestURI s <;>
      simp [urlValidate, h, resultInvariant]
  · intro lib s; cases h : lib.parseAddress s <;>
      simp [emailValidate, h, resultInvariant]
  · intro s; unfold nonEmptyValidate resultInvariant; split <;> simp
  · intro size s; unfold minLengthValidate resultInvariant
    split
    · simp
    · split <;> simp
  · intro size s; unfold maxLengthValidate resultInvariant
    split
    · simp
    · split <;> simp
  · intro mn mx s
    simp only [lengthRangeValidate, resultInvariant]
    split
    · simp
    · split
      · simp
      · split <;> simp
  · intro lib p s; unfold regexValidate resultInvariant; split <;> simp
  · intro s
    simp only [alphaNumericValidate, resultInvariant]
    split <;> simp
  · intro lib s; cases h : lib.parseMAC s <;>
      simp [macValidate, h, resultInvariant]
  · intro lib s; cases h : lib.parseIP s <;>
      simp [ipValidate, h, resultInvariant]
  · intro lib s
    cases h : lib.parseIP s with
    | none => simp [ipv4Validate, h, resultInvariant]
    | some isV4 =>
      cases isV4 <;> simp [ipv4Validate, h, resultInvariant]
  · intro lib s
    cases h : lib.parseIP s with
    | none => simp [ipv6Validate, h, resultInvariant]
    | some isV4 =>
      cases isV4 <;> simp [ipv6Validate, h, resultInvariant]
  · intro lib s
    cases h : lib.xmlScan s with
    | error msg => simp [xmlValidate, h, resultInvariant]
    | ok hasElement =>
      cases hasElement <;> simp [xmlValidate, h, resultInvariant]
  · intro lib s; unfold jsonValidate resultInvariant; split <;> simp

/-- Witness for C9: the composite of two contract-honouring members
satisfies the invariant on a concrete input. -/
theorem c9_result_invariant_witness :
    resultInvariant
      (compositeValidate [nonEmptyValidate, minLengthValidate 5] "hey") := by
  refine c9_result_invariant.1 String [nonEmptyValidate, minLengthValidate 5]
    "hey" ?_
  intro v hv y
  simp only [List.mem_cons, List.not_mem_nil, or_false] at hv
  rcases hv with rfl | rfl
  · exact c9_result_invariant.2.2.2.2.2.2.2.1 y
  · exact c9_result_invariant.2.2.2.2.2.2.2.2.1 5 y

/-- Witness for C10: a contract-honouring validator (`IntRange{0,10}`)
stores `5` and `Get` returns it. -/
theorem c10_set_get_witness :
    (((ValidatedValue.mk (0 : Int) (some (intRangeValidate 0 10))).set 5).2).get = 5 := by
  refine c10_set_get.2.2 Int (ValidatedValue.mk 0 (some (intRangeValidate 0 10))) 5 ?_ (by decide)
  intro u hu y hf
  have hvu : intRangeValidate 0 10 = u := by
    have : some (intRangeValidate 0 10) = some u := hu
    exact Option.some.inj this
  subst hvu
  unfold intRangeValidate at hf ⊢
  by_cases hc : y < 0 ∨ y > 10
  · rw [if_pos hc]; simp
  · rw [if_neg hc] at hf; simp at hf

end Avowed
